import Mathlib

/-!
Verification of the gateway selection-and-lifecycle engine
(`neurons/validator/gateway/gateway_manager.py`).

The manager owns a list of gateways, selects the best one by score
(falling back to a uniformly random pick when the maximum score is the
minimum sentinel), fetches tasks from a target gateway URL (resetting
`disabled` flags first, disabling the target on an empty result, and
re-scoring the whole set afterwards), and forwards results to the
transport client.

Python floats are modelled as rationals (only order and equality of
scores matter to the manager), the `random.choice` call is modelled by an
externally supplied draw index taken modulo the list length, and the
possibly-stateful scorer object is modelled as a state-passing function
so that the number of scorer invocations is observable.
-/

/-- Modelled from the spec (§3): the `Gateway` data entity (class not under
`src/`): a stable `url`, a comparable numeric `score`, and a transient
`disabled` flag. -/
structure Gateway where
  url : String
  score : ℚ
  disabled : Bool
deriving Repr, DecidableEq

/-- Modelled from the spec (§6): the wire-level task reference
`GatewayTask` (class not under `src/`): task id, original prompt and
originating gateway host. -/
structure GatewayTask where
  id : String
  prompt : String
  gateway_host : String
deriving Repr, DecidableEq

/-- Modelled from the spec (§6): the caller-side task representation
`GatewayOrganicTask` (class not under `src/`): id, prompt and the URL of
the originating gateway. -/
structure GatewayOrganicTask where
  id : String
  prompt : String
  gateway_url : String
deriving Repr, DecidableEq

/-- The `GatewayManager` state: the single owned, ordered collection of
gateways (`self._gateways`). -/
structure Manager where
  gateways : List Gateway
deriving Repr, DecidableEq

/-- The two-field projection of a gateway that `get_best_gateway` can
observe: `url` and `score` (everything except `disabled`). -/
structure GatewayView where
  url : String
  score : ℚ
deriving Repr, DecidableEq

/-- Project a gateway to its selection-relevant fields. -/
def Gateway.view (g : Gateway) : GatewayView :=
  { url := g.url, score := g.score }

/-- One step of Python's `max(..., key=lambda x: x.score)`: the running
best is replaced only on a strictly greater key. -/
def maxStep (acc : Option Gateway) (g : Gateway) : Option Gateway :=
  match acc with
  | none => some g
  | some b => if b.score < g.score then some g else some b

/-- `max(self._gateways, key=lambda x: x.score)`: Python `max` keeps the
first element and replaces it only on a strictly greater key, so ties are
broken in favour of the earliest element. Returns `none` on `[]` (the
caller guards against that). -/
def maxByScore (gs : List Gateway) : Option Gateway :=
  gs.foldl maxStep none

/-- `GatewayManager.get_best_gateway`.  `minScore` stands for the
`GatewayScorer.GATEWAY_MIN_SCORE` sentinel (the scorer class is not under
`src/`, so the constant is a parameter); `draw` is the value produced by
the uniform random source backing `rd.choice`, taken modulo the list
length. -/
def get_best_gateway (minScore : ℚ) (m : Manager) (draw : Nat) : Option Gateway :=
  if m.gateways.isEmpty then none
  else
    match maxByScore m.gateways with
    | none => none
    | some gateway =>
      if gateway.score = minScore then m.gateways[draw % m.gateways.length]?
      else some gateway

/-- The Python method call `m.get_best_gateway()` returns the selected
gateway and leaves `self` as it was: the method body contains no write to
`self`. -/
def get_best_gateway_run (minScore : ℚ) (m : Manager) (draw : Nat) :
    Option Gateway × Manager :=
  (get_best_gateway minScore m draw, m)

/-- The reset loop at the top of `get_tasks`:
`for gateway in self._gateways: gateway.disabled = False`. -/
def resetDisabled (gs : List Gateway) : List Gateway :=
  gs.map fun g => { g with disabled := false }

/-- The disable loop of `get_tasks`: find the first gateway whose `url`
matches, set its `disabled = True`, then `break`; if none matches the
list is returned unchanged. -/
def disableByUrl (url : String) : List Gateway → List Gateway
  | [] => []
  | g :: rest =>
    if g.url = url then { g with disabled := true } :: rest
    else g :: disableByUrl url rest

/-- A scorer: the `GatewayScorer` object's `score` method, modelled as a
function that may also carry internal state of type `S` (so invocation
counts are observable in the final state). -/
def Scorer (S : Type) : Type :=
  List Gateway → S → List Gateway × S

/-- `GatewayManager._update_gateways`: replace the set with the scorer's
output (the logging loop has no effect on the state). -/
def update_gateways {S : Type} (scorer : Scorer S) (gs : List Gateway) (s : S) :
    List Gateway × S :=
  scorer gs s

/-- Modelled from the spec (§4.2, §6): the `GatewayScorer` (not under
`src/`) re-orders/re-values the gateway set — it may drop gateways and
rewrite scores, but every gateway it returns comes from an input gateway
with the same `url` and the same `disabled` flag. -/
def ScorerPreserves {S : Type} (scorer : Scorer S) : Prop :=
  ∀ gs s, ∀ g' ∈ (scorer gs s).1, ∃ g ∈ gs, g'.url = g.url ∧ g'.disabled = g.disabled

/-- The outcome of the one `self._gateway_api.get_tasks(...)` transport
call inside `get_tasks`: success with tasks and a replacement gateway
list, failure with `Http3Exception`, or any other exception. -/
inductive FetchOutcome where
  | ok (tasks : List GatewayTask) (gateways : List Gateway)
  | http3Error (msg : String)
  | otherError (msg : String)
deriving Repr, DecidableEq

/-- `GatewayManager.get_tasks(url=..., ...)`.  Control flow of the
source: inside `try`, reset every `disabled` flag, call the transport
client, and on success take its tasks and replace the gateway set;
`Http3Exception` is caught and logged (tasks stay `[]`, the set stays the
reset set); any other exception propagates (`Except.error`).  After the
`try`, if the task list is empty the first gateway matching `url` is
disabled; finally `_update_gateways` re-scores and replaces the set.
Returns the task list, the final manager state, and the scorer state. -/
def get_tasks {S : Type} (scorer : Scorer S) (url : String) (fetch : FetchOutcome)
    (m : Manager) (s0 : S) :
    Except (String × Manager × S) (List GatewayTask × Manager × S) :=
  let g1 := resetDisabled m.gateways
  match fetch with
  | .otherError e => .error (e, ⟨g1⟩, s0)
  | .http3Error _ =>
    let tasks : List GatewayTask := []
    let g3 := if tasks.isEmpty then disableByUrl url g1 else g1
    let r := update_gateways scorer g3 s0
    .ok (tasks, ⟨r.1⟩, r.2)
  | .ok tasks gws =>
    let g3 := if tasks.isEmpty then disableByUrl url gws else gws
    let r := update_gateways scorer g3 s0
    .ok (tasks, ⟨r.1⟩, r.2)

/-- The argument bundle of the one `self._gateway_api.add_result(...)`
call: the translated wire-level task plus the outcome fields, forwarded
verbatim. -/
structure AddResultCall where
  task : GatewayTask
  score : Option ℚ
  miner_hotkey : Option String
  miner_uid : Option Int
  miner_rating : Option ℚ
  asset : Option (List Nat)
  error : Option String
deriving Repr, DecidableEq

/-- `GatewayManager.add_result`: build the wire task from the caller's
task (`id`, `prompt`, `gateway_url` becomes `gateway_host`) and invoke
the transport client's `add_result` once; the manager state is not
touched and the call's outcome is returned as is. -/
def add_result (api : AddResultCall → Except String Unit) (m : Manager)
    (task : GatewayOrganicTask) (score : Option ℚ) (miner_hotkey : Option String)
    (miner_uid : Option Int) (miner_rating : Option ℚ) (asset : Option (List Nat))
    (error : Option String) : Except String Unit × Manager :=
  (api
    { task := { id := task.id, prompt := task.prompt, gateway_host := task.gateway_url }
      score := score
      miner_hotkey := miner_hotkey
      miner_uid := miner_uid
      miner_rating := miner_rating
      asset := asset
      error := error }, m)

/-- An identity scorer with trivial state, used to instantiate theorems
at concrete inputs. -/
def idScorer : Scorer Unit := fun gs s => (gs, s)

/-- A scorer over `Nat` state that counts its own invocations, used to
instantiate theorems at concrete inputs. -/
def countScorer : Scorer Nat := fun gs n => (gs, n + 1)

/-! ### Helper lemmas about the max-by-score fold -/

lemma foldl_maxStep_eq_or_mem (gs : List Gateway) :
    ∀ (acc : Option Gateway) (b : Gateway),
      gs.foldl maxStep acc = some b → b ∈ gs ∨ acc = some b := by
  induction gs with
  | nil => intro acc b h; exact Or.inr h
  | cons g rest ih =>
    intro acc b h
    rw [List.foldl_cons] at h
    rcases ih (maxStep acc g) b h with hmem | hacc
    · exact Or.inl (List.mem_cons_of_mem _ hmem)
    · cases acc with
      | none =>
        simp only [maxStep, Option.some.injEq] at hacc
        exact Or.inl (by rw [← hacc]; exact List.mem_cons_self g rest)
      | some a =>
        by_cases hlt : a.score < g.score
        · simp only [maxStep, if_pos hlt, Option.some.injEq] at hacc
          exact Or.inl (by rw [← hacc]; exact List.mem_cons_self g rest)
        · simp only [maxStep, if_neg hlt] at hacc
          exact Or.inr hacc

lemma foldl_maxStep_ge (gs : List Gateway) :
    ∀ (acc : Option Gateway) (b : Gateway),
      gs.foldl maxStep acc = some b →
      (∀ g ∈ gs, g.score ≤ b.score) ∧ (∀ a, acc = some a → a.score ≤ b.score) := by
  induction gs with
  | nil =>
    intro acc b h
    refine ⟨by simp, fun a ha => ?_⟩
    rw [ha] at h
    cases h
    exact le_refl _
  | cons g rest ih =>
    intro acc b h
    rw [List.foldl_cons] at h
    obtain ⟨h1, h2⟩ := ih (maxStep acc g) b h
    constructor
    · intro x hx
      rcases List.mem_cons.mp hx with rfl | hx'
      · cases acc with
        | none => exact h2 x rfl
        | some a =>
          by_cases hlt : a.score < x.score
          · exact h2 x (by simp [maxStep, if_pos hlt])
          · exact le_trans (not_lt.mp hlt) (h2 a (by simp [maxStep, if_neg hlt]))
      · exact h1 x hx'
    · intro a ha
      subst ha
      by_cases hlt : a.score < g.score
      · exact le_trans (le_of_lt hlt) (h2 g (by simp [maxStep, if_pos hlt]))
      · exact h2 a (by simp [maxStep, if_neg hlt])

lemma foldl_maxStep_some (gs : List Gateway) :
    ∀ (a : Gateway), ∃ b, gs.foldl maxStep (some a) = some b := by
  induction gs with
  | nil => intro a; exact ⟨a, rfl⟩
  | cons g rest ih =>
    intro a
    rw [List.foldl_cons]
    by_cases hlt : a.score < g.score
    · simpa [maxStep, if_pos hlt] using ih g
    · simpa [maxStep, if_neg hlt] using ih a

lemma maxByScore_cons_some (g : Gateway) (rest : List Gateway) :
    ∃ b, maxByScore (g :: rest) = some b := by
  unfold maxByScore
  rw [List.foldl_cons]
  exact foldl_maxStep_some rest g

lemma maxByScore_mem {gs : List Gateway} {b : Gateway}
    (h : maxByScore gs = some b) : b ∈ gs := by
  rcases foldl_maxStep_eq_or_mem gs none b h with hmem | hacc
  · exact hmem
  · cases hacc

lemma maxByScore_ge {gs : List Gateway} {b : Gateway}
    (h : maxByScore gs = some b) : ∀ g ∈ gs, g.score ≤ b.score :=
  (foldl_maxStep_ge gs none b h).1

/-! ### Helper lemmas about reset and disable -/

lemma resetDisabled_mem {gs : List Gateway} {g : Gateway}
    (h : g ∈ resetDisabled gs) : g.disabled = false := by
  unfold resetDisabled at h
  obtain ⟨g0, _, rfl⟩ := List.mem_map.mp h
  rfl

lemma resetDisabled_map_url (gs : List Gateway) :
    (resetDisabled gs).map Gateway.url = gs.map Gateway.url := by
  unfold resetDisabled
  rw [List.map_map]
  rfl

lemma disableByUrl_disabled {url : String} :
    ∀ {gs : List Gateway}, (gs.map Gateway.url).Nodup →
      ∀ g ∈ disableByUrl url gs, g.url = url → g.disabled = true := by
  intro gs
  induction gs with
  | nil => intro _ g hg; cases hg
  | cons a rest ih =>
    intro hnd g hg hurl
    rw [List.map_cons, List.nodup_cons] at hnd
    obtain ⟨hna, hnd'⟩ := hnd
    unfold disableByUrl at hg
    by_cases ha : a.url = url
    · rw [if_pos ha] at hg
      rcases List.mem_cons.mp hg with rfl | hg'
      · rfl
      · exact absurd (ha ▸ hurl ▸ List.mem_map_of_mem Gateway.url hg') hna
    · rw [if_neg ha] at hg
      rcases List.mem_cons.mp hg with rfl | hg'
      · exact absurd hurl ha
      · exact ih hnd' g hg' hurl

lemma disableByUrl_no_match {url : String} :
    ∀ {gs : List Gateway}, (∀ g ∈ gs, g.url ≠ url) → disableByUrl url gs = gs := by
  intro gs
  induction gs with
  | nil => intro _; rfl
  | cons a rest ih =>
    intro h
    unfold disableByUrl
    rw [if_neg (h a (List.mem_cons_self a rest))]
    rw [ih fun g hg => h g (List.mem_cons_of_mem a hg)]

/-! ### Helper lemma: selection sees only url and score -/

lemma foldl_maxStep_view (gs1 : List Gateway) :
    ∀ (gs2 : List Gateway) (acc1 acc2 : Option Gateway),
      gs1.map Gateway.view = gs2.map Gateway.view →
      acc1.map Gateway.view = acc2.map Gateway.view →
      (gs1.foldl maxStep acc1).map Gateway.view =
        (gs2.foldl maxStep acc2).map Gateway.view := by
  induction gs1 with
  | nil =>
    intro gs2 acc1 acc2 h hacc
    cases gs2 with
    | nil => simpa using hacc
    | cons g2 rest2 => simp at h
  | cons g1 rest1 ih =>
    intro gs2 acc1 acc2 h hacc
    cases gs2 with
    | nil => simp at h
    | cons g2 rest2 =>
      rw [List.map_cons, List.map_cons] at h
      have hg : g1.view = g2.view := (List.cons_eq_cons.mp h).1
      have hrest : rest1.map Gateway.view = rest2.map Gateway.view :=
        (List.cons_eq_cons.mp h).2
      rw [List.foldl_cons, List.foldl_cons]
      refine ih rest2 _ _ hrest ?_
      have hgs : g1.score = g2.score := congrArg GatewayView.score hg
      cases acc1 with
      | none =>
        cases acc2 with
        | none => simpa [maxStep] using hg
        | some b2 => simp at hacc
      | some b1 =>
        cases acc2 with
        | none => simp at hacc
        | some b2 =>
          have hb : b1.view = b2.view := by simpa using hacc
          have hbs : b1.score = b2.score := congrArg GatewayView.score hb
          by_cases hlt : b1.score < g1.score
          · have hlt2 : b2.score < g2.score := hbs ▸ hgs ▸ hlt
            simp [maxStep, if_pos hlt, if_pos hlt2, hg]
          · have hlt2 : ¬ b2.score < g2.score := hbs ▸ hgs ▸ hlt
            simp [maxStep, if_neg hlt, if_neg hlt2, hb]

lemma get_best_gateway_of_unique_max (ms : ℚ) (gs : List Gateway) (i : Nat)
    (hi : i < gs.length) (draw : Nat) (hgt : ms < gs[i].score)
    (hmax : ∀ j (hj : j < gs.length), j ≠ i → gs[j].score < gs[i].score) :
    get_best_gateway ms ⟨gs⟩ draw = some gs[i] := by
  have hne : gs ≠ [] := by
    intro h
    rw [h] at hi
    exact absurd hi (by simp)
  obtain ⟨a, rest, rfl⟩ := List.exists_cons_of_ne_nil hne
  obtain ⟨b, hb⟩ := maxByScore_cons_some a rest
  have hbmem : b ∈ a :: rest := maxByScore_mem hb
  have hge := maxByScore_ge hb
  obtain ⟨j, hj, hbj⟩ := List.mem_iff_getElem.mp hbmem
  have hji : j = i := by
    by_contra hne'
    have h1 := hmax j hj hne'
    have h2 := hge (a :: rest)[i] (List.getElem_mem hi)
    rw [hbj] at h1
    exact absurd h2 (not_le.mpr h1)
  subst hji
  rw [← hbj] at hb
  have hnem : ¬ (a :: rest).isEmpty = true := by simp
  unfold get_best_gateway
  rw [if_neg hnem, hb]
  exact if_neg (ne_of_gt hgt)

/-! ### Claim theorems -/

/-- Claim C5: `get_best_gateway` on an empty gateway set returns the
distinguished absent value `none` (and, being total, never raises). -/
theorem get_best_gateway_empty (ms : ℚ) (draw : Nat) :
    get_best_gateway ms ⟨[]⟩ draw = none :=
  rfl

/-- Claim C3: a transport (`Http3Exception`) failure inside `get_tasks`
is not raised to the caller: the call returns normally with an empty task
list, and the set that the subsequent disable and re-score steps operate
on is exactly the reset of the prior set — the failed fetch step itself
changed nothing. -/
theorem get_tasks_http3_absorbed {S : Type} (scorer : Scorer S) (url e : String)
    (m : Manager) (s0 : S) :
    get_tasks scorer url (.http3Error e) m s0 =
      .ok ([], ⟨(scorer (disableByUrl url (resetDisabled m.gateways)) s0).1⟩,
        (scorer (disableByUrl url (resetDisabled m.gateways)) s0).2) :=
  rfl

/-- Claim C10: a non-`Http3Exception` error from the transport call
propagates out of `get_tasks`; neither the disable-on-empty step nor the
scorer runs (the scorer state is still `s0`), and the manager is left
with every `disabled` flag cleared by the reset step. -/
theorem get_tasks_other_error_raises {S : Type} (scorer : Scorer S) (url e : String)
    (m : Manager) (s0 : S) :
    get_tasks scorer url (.otherError e) m s0 =
      .error (e, ⟨resetDisabled m.gateways⟩, s0) :=
  rfl

/-- Claim C8: `add_result` is pure forwarding: it invokes the transport
client once on the wire-level task reference built from the caller's task
(id, prompt, originating gateway host) with all outcome fields passed
through verbatim, returns that call's outcome unmodified, and leaves the
manager state untouched. -/
theorem add_result_forwards (api : AddResultCall → Except String Unit) (m : Manager)
    (task : GatewayOrganicTask) (score : Option ℚ) (mh : Option String)
    (mu : Option Int) (mr : Option ℚ) (a : Option (List Nat)) (e : Option String) :
    add_result api m task score mh mu mr a e =
      (api
        { task := { id := task.id, prompt := task.prompt, gateway_host := task.gateway_url }
          score := score
          miner_hotkey := mh
          miner_uid := mu
          miner_rating := mr
          asset := a
          error := e }, m) :=
  rfl

/-- Claim C2: on every returning branch of `get_tasks` (success with
tasks, success with zero tasks, transport failure) the scorer is invoked
exactly once — the final scorer state and the final gateway set are the
two components of a single scorer application — and the gateway set left
behind (what a later `get_best_gateway` reads) is exactly that scorer
output. -/
theorem get_tasks_scorer_once {S : Type} (scorer : Scorer S) (url : String)
    (fetch : FetchOutcome) (m : Manager) (s0 : S) (tasks : List GatewayTask)
    (m' : Manager) (s' : S)
    (h : get_tasks scorer url fetch m s0 = .ok (tasks, m', s')) :
    ∃ gs, scorer gs s0 = (m'.gateways, s') := by
  cases fetch with
  | otherError e => exact absurd h (by simp [get_tasks])
  | http3Error e =>
    have hred : get_tasks scorer url (FetchOutcome.http3Error e) m s0 =
        Except.ok (([] : List GatewayTask),
          (⟨(scorer (disableByUrl url (resetDisabled m.gateways)) s0).1⟩ : Manager),
          (scorer (disableByUrl url (resetDisabled m.gateways)) s0).2) := rfl
    rw [hred] at h
    simp only [Except.ok.injEq, Prod.mk.injEq] at h
    obtain ⟨-, h2, h3⟩ := h
    exact ⟨disableByUrl url (resetDisabled m.gateways), by rw [← h2, ← h3]⟩
  | ok ts gws =>
    have hred : get_tasks scorer url (FetchOutcome.ok ts gws) m s0 =
        Except.ok (ts,
          (⟨(scorer (if ts.isEmpty then disableByUrl url gws else gws) s0).1⟩ : Manager),
          (scorer (if ts.isEmpty then disableByUrl url gws else gws) s0).2) := rfl
    rw [hred] at h
    simp only [Except.ok.injEq, Prod.mk.injEq] at h
    obtain ⟨-, h2, h3⟩ := h
    exact ⟨if ts.isEmpty then disableByUrl url gws else gws, by rw [← h2, ← h3]⟩

/-- Witness for C2: with a counting scorer, a `get_tasks` call that
fetched zero tasks ends with the invocation counter at exactly 1 and the
final set equal to the scorer's output on the disabled singleton. -/
theorem get_tasks_scorer_once_w :
    ∃ gs, countScorer gs 0 = ([⟨"a", 5, true⟩], 1) :=
  get_tasks_scorer_once countScorer "a" (.ok [] [⟨"a", 5, false⟩]) ⟨[]⟩ 0 []
    ⟨[⟨"a", 5, true⟩]⟩ 1 rfl

/-- Claim C4: every gateway coming out of the reset step has
`disabled = false`, and `get_tasks` is insensitive to the incoming
`disabled` flags: two starting states that agree after the reset produce
identical outcomes, so a gateway disabled in one cycle is eligible again
in the next. -/
theorem get_tasks_reset_first :
    (∀ gs : List Gateway, ∀ g ∈ resetDisabled gs, g.disabled = false) ∧
    (∀ {S : Type} (scorer : Scorer S) (url : String) (fetch : FetchOutcome)
        (m1 m2 : Manager) (s0 : S),
      resetDisabled m1.gateways = resetDisabled m2.gateways →
      get_tasks scorer url fetch m1 s0 = get_tasks scorer url fetch m2 s0) := by
  constructor
  · exact fun gs g hg => resetDisabled_mem hg
  · intro S scorer url fetch m1 m2 s0 h
    cases fetch <;> simp [get_tasks, h]

/-- Witness for C4: a gateway that was disabled comes out of the reset
step enabled, and two managers differing only in a `disabled` flag give
identical `get_tasks` outcomes. -/
theorem get_tasks_reset_first_w :
    (Gateway.mk "a" 5 false).disabled = false ∧
    get_tasks idScorer "a" (.http3Error "x") ⟨[⟨"a", 5, true⟩]⟩ () =
      get_tasks idScorer "a" (.http3Error "x") ⟨[⟨"a", 5, false⟩]⟩ () :=
  ⟨get_tasks_reset_first.1 [⟨"a", 5, true⟩] ⟨"a", 5, false⟩ (by simp [resetDisabled]),
   get_tasks_reset_first.2 idScorer "a" (.http3Error "x")
     ⟨[⟨"a", 5, true⟩]⟩ ⟨[⟨"a", 5, false⟩]⟩ () rfl⟩

/-- Claim C6: when exactly one gateway scores above the minimum sentinel
and strictly above every other gateway, `get_best_gateway` returns that
gateway (for every random draw), and the call leaves the gateway set
untouched. -/
theorem get_best_gateway_unique_max (ms : ℚ) (gs : List Gateway) (i : Nat)
    (hi : i < gs.length) (draw : Nat) (hgt : ms < gs[i].score)
    (hmax : ∀ j (hj : j < gs.length), j ≠ i → gs[j].score < gs[i].score) :
    get_best_gateway ms ⟨gs⟩ draw = some gs[i] ∧
    (get_best_gateway_run ms ⟨gs⟩ draw).2 = ⟨gs⟩ :=
  ⟨get_best_gateway_of_unique_max ms gs i hi draw hgt hmax, rfl⟩

/-- Witness for C6: with scores 5 and 1 above sentinel 0, the first
gateway is selected whatever the draw, and the set is unchanged. -/
theorem get_best_gateway_unique_max_w :
    get_best_gateway 0 ⟨[⟨"a", 5, false⟩, ⟨"b", 1, false⟩]⟩ 7 =
      some (⟨"a", 5, false⟩ : Gateway) ∧
    (get_best_gateway_run 0 ⟨[⟨"a", 5, false⟩, ⟨"b", 1, false⟩]⟩ 7).2 =
      ⟨[⟨"a", 5, false⟩, ⟨"b", 1, false⟩]⟩ :=
  get_best_gateway_unique_max 0 [⟨"a", 5, false⟩, ⟨"b", 1, false⟩] 0
    (by decide) 7 (by decide) (by decide)

/-- Claim C7: when the maximum score equals the minimum sentinel,
`get_best_gateway` returns the element of the full set selected by the
uniform random source (index `draw` modulo the set size); in particular
every position of the set is the result for the draw equal to it. -/
theorem get_best_gateway_min_random (ms : ℚ) (gs : List Gateway) (b : Gateway)
    (draw : Nat) (hb : maxByScore gs = some b) (hbs : b.score = ms) :
    get_best_gateway ms ⟨gs⟩ draw = gs[draw % gs.length]? ∧
    (∀ i (hi : i < gs.length), get_best_gateway ms ⟨gs⟩ i = some gs[i]) := by
  have hne : gs.isEmpty = false := by
    cases gs with
    | nil => simp [maxByScore] at hb
    | cons a rest => rfl
  have main : ∀ d : Nat, get_best_gateway ms ⟨gs⟩ d = gs[d % gs.length]? := by
    intro d
    simp [get_best_gateway, hne, hb, hbs]
  refine ⟨main draw, fun i hi => ?_⟩
  rw [main i, Nat.mod_eq_of_lt hi, List.getElem?_eq_getElem hi]

/-- Witness for C7: two gateways both at the sentinel score; draw 1
selects the second element of the full set. -/
theorem get_best_gateway_min_random_w :
    get_best_gateway 0 ⟨[⟨"a", 0, false⟩, ⟨"b", 0, false⟩]⟩ 1 =
      [(⟨"a", 0, false⟩ : Gateway), ⟨"b", 0, false⟩][1 % 2]? ∧
    get_best_gateway 0 ⟨[⟨"a", 0, false⟩, ⟨"b", 0, false⟩]⟩ 1 =
      some (⟨"b", 0, false⟩ : Gateway) := by
  have h := get_best_gateway_min_random 0 [⟨"a", 0, false⟩, ⟨"b", 0, false⟩]
    ⟨"a", 0, false⟩ 1 (by decide) (by decide)
  exact ⟨h.1, h.2 1 (by decide)⟩

/-- Claim C1: assuming the data-model invariant that URLs are unique in
the set and that the scorer preserves `url` and `disabled` of the
gateways it keeps, whenever `get_tasks` returns an empty task list
(success with no work or transport failure) every gateway with the target
URL left in the final post-rescore set is disabled; and when no gateway
carries the target URL at the disable step, that step is the identity. -/
theorem get_tasks_disable_on_empty {S : Type} (scorer : Scorer S) (url : String)
    (fetch : FetchOutcome) (m : Manager) (s0 : S) (tasks : List GatewayTask)
    (m' : Manager) (s' : S)
    (hpres : ScorerPreserves scorer)
    (hnd : (m.gateways.map Gateway.url).Nodup)
    (hndf : ∀ ts gws, fetch = .ok ts gws → (gws.map Gateway.url).Nodup)
    (h : get_tasks scorer url fetch m s0 = .ok (tasks, m', s'))
    (hemp : tasks = []) :
    (∀ g ∈ m'.gateways, g.url = url → g.disabled = true) ∧
    (∀ gs : List Gateway, (∀ g ∈ gs, g.url ≠ url) → disableByUrl url gs = gs) := by
  refine ⟨?_, fun gs hg => disableByUrl_no_match hg⟩
  subst hemp
  cases fetch with
  | otherError e => exact absurd h (by simp [get_tasks])
  | http3Error e =>
    have hred : get_tasks scorer url (FetchOutcome.http3Error e) m s0 =
        Except.ok (([] : List GatewayTask),
          (⟨(scorer (disableByUrl url (resetDisabled m.gateways)) s0).1⟩ : Manager),
          (scorer (disableByUrl url (resetDisabled m.gateways)) s0).2) := rfl
    rw [hred] at h
    simp only [Except.ok.injEq, Prod.mk.injEq] at h
    obtain ⟨-, h2, -⟩ := h
    intro g hg hu
    rw [← h2] at hg
    obtain ⟨g0, hg0, hgu, hgd⟩ := hpres _ s0 g hg
    have hnd' : ((resetDisabled m.gateways).map Gateway.url).Nodup := by
      rw [resetDisabled_map_url]
      exact hnd
    rw [hgd]
    exact disableByUrl_disabled hnd' g0 hg0 (by rw [← hgu]; exact hu)
  | ok ts gws =>
    have hred : get_tasks scorer url (FetchOutcome.ok ts gws) m s0 =
        Except.ok (ts,
          (⟨(scorer (if ts.isEmpty then disableByUrl url gws else gws) s0).1⟩ : Manager),
          (scorer (if ts.isEmpty then disableByUrl url gws else gws) s0).2) := rfl
    rw [hred] at h
    simp only [Except.ok.injEq, Prod.mk.injEq] at h
    obtain ⟨hts, h2, -⟩ := h
    subst hts
    simp only [List.isEmpty_nil, if_true] at h2
    intro g hg hu
    rw [← h2] at hg
    obtain ⟨g0, hg0, hgu, hgd⟩ := hpres _ s0 g hg
    rw [hgd]
    exact disableByUrl_disabled (hndf [] gws rfl) g0 hg0 (by rw [← hgu]; exact hu)

/-- Witness for C1: identity scorer, fetch succeeds with zero tasks and a
singleton gateway list carrying the target URL; the final set holds that
gateway disabled, as the theorem predicts for its sole member. -/
theorem get_tasks_disable_on_empty_w :
    get_tasks idScorer "a" (.ok [] [⟨"a", 5, false⟩]) ⟨[]⟩ () =
      .ok ([], ⟨[⟨"a", 5, true⟩]⟩, ()) ∧
    (Gateway.mk "a" 5 true).disabled = true := by
  refine ⟨rfl, ?_⟩
  exact (get_tasks_disable_on_empty idScorer "a" (.ok [] [⟨"a", 5, false⟩]) ⟨[]⟩ ()
      [] ⟨[⟨"a", 5, true⟩]⟩ ()
      (fun gs s g' hmem => ⟨g', hmem, rfl, rfl⟩)
      (by simp)
      (by rintro ts gws hok; cases hok; simp)
      rfl rfl).1 ⟨"a", 5, true⟩ (by simp) rfl

/-- Claim C9 (implicit): `get_best_gateway` is independent of the
`disabled` flags — two sets identical except in `disabled` values yield,
for the same draw, results identical up to their own `disabled` flag
(same position, url and score); and a gateway marked disabled is still
returned when it holds the unique maximum score above the sentinel. -/
theorem get_best_gateway_disabled_independent :
    (∀ (ms : ℚ) (gs1 gs2 : List Gateway) (draw : Nat),
        gs1.map Gateway.view = gs2.map Gateway.view →
        (get_best_gateway ms ⟨gs1⟩ draw).map Gateway.view =
          (get_best_gateway ms ⟨gs2⟩ draw).map Gateway.view) ∧
    (∀ (ms : ℚ) (gs : List Gateway) (i : Nat) (hi : i < gs.length) (draw : Nat),
        gs[i].disabled = true → ms < gs[i].score →
        (∀ j (hj : j < gs.length), j ≠ i → gs[j].score < gs[i].score) →
        get_best_gateway ms ⟨gs⟩ draw = some gs[i]) := by
  constructor
  · intro ms gs1 gs2 draw h
    have hlen : gs1.length = gs2.length := by
      simpa using congrArg List.length h
    have hmv : (maxByScore gs1).map Gateway.view = (maxByScore gs2).map Gateway.view :=
      foldl_maxStep_view gs1 gs2 none none h rfl
    have hget : ∀ k : Nat, (gs1[k]?).map Gateway.view = (gs2[k]?).map Gateway.view := by
      intro k
      rw [← List.getElem?_map, ← List.getElem?_map, h]
    cases gs1 with
    | nil =>
      cases gs2 with
      | nil => rfl
      | cons b rest2 => simp at h
    | cons a rest1 =>
      cases gs2 with
      | nil => simp at h
      | cons b rest2 =>
        obtain ⟨b1, hb1⟩ := maxByScore_cons_some a rest1
        obtain ⟨b2, hb2⟩ := maxByScore_cons_some b rest2
        rw [hb1, hb2] at hmv
        have hbv : b1.view = b2.view := by simpa using hmv
        have hbs : b1.score = b2.score := congrArg GatewayView.score hbv
        by_cases hms : b1.score = ms
        · have hms2 : b2.score = ms := by rw [← hbs]; exact hms
          have e1 : get_best_gateway ms ⟨a :: rest1⟩ draw =
              (a :: rest1)[draw % (a :: rest1).length]? := by
            simp [get_best_gateway, hb1, hms]
          have e2 : get_best_gateway ms ⟨b :: rest2⟩ draw =
              (b :: rest2)[draw % (b :: rest2).length]? := by
            simp [get_best_gateway, hb2, hms2]
          rw [e1, e2, hlen]
          exact hget _
        · have hms2 : ¬ b2.score = ms := fun hc => hms (by rw [hbs]; exact hc)
          have e1 : get_best_gateway ms ⟨a :: rest1⟩ draw = some b1 := by
            simp [get_best_gateway, hb1, hms]
          have e2 : get_best_gateway ms ⟨b :: rest2⟩ draw = some b2 := by
            simp [get_best_gateway, hb2, hms2]
          rw [e1, e2]
          simpa using hbv
  · intro ms gs i hi draw _ hgt hmax
    exact get_best_gateway_of_unique_max ms gs i hi draw hgt hmax

/-- Witness for C9: toggling a `disabled` flag leaves the selected
url/score unchanged, and a disabled unique-maximum gateway is still the
one returned. -/
theorem get_best_gateway_disabled_independent_w :
    (get_best_gateway 0 ⟨[⟨"a", 5, true⟩]⟩ 0).map Gateway.view =
      (get_best_gateway 0 ⟨[⟨"a", 5, false⟩]⟩ 0).map Gateway.view ∧
    get_best_gateway 0 ⟨[⟨"a", 5, true⟩, ⟨"b", 1, false⟩]⟩ 3 =
      some (⟨"a", 5, true⟩ : Gateway) :=
  ⟨get_best_gateway_disabled_independent.1 0 [⟨"a", 5, true⟩] [⟨"a", 5, false⟩] 0 rfl,
   get_best_gateway_disabled_independent.2 0 [⟨"a", 5, true⟩, ⟨"b", 1, false⟩] 0
     (by decide) 3 (by decide) (by decide) (by decide)⟩
